import Mathlib

/-!
Shallow embedding of the `omise` Python client library
(`src/omise/__init__.py`) for verification of its specification.

Decoded JSON values are modelled by `JVal`; Python dicts are association
lists with unique-key update semantics (`dget` / `dset`); Python `None`
returned by `dict.get` is `JVal.null` (Python's `None` is JSON null).
Exceptions are modelled by `Except PyErr`.  The HTTP transport (the
`requests` package, an external collaborator) is a parameter: a function
from the constructed call to the decoded JSON object of the response
(the spec's response contract, section 6, fixes responses to be JSON
objects).
-/

set_option maxHeartbeats 1000000

namespace Omise

/-- A decoded JSON value (the result of `response.json()`); Python `None`
is `JVal.null`. Objects keep their key order, as Python dicts do. -/
inductive JVal where
  | null : JVal
  | bool : Bool → JVal
  | num : Int → JVal
  | str : String → JVal
  | arr : List JVal → JVal
  | obj : List (String × JVal) → JVal
  deriving Repr

/-- Python exceptions raised by the library code under `src/`.
`apiError` stands for the exception raised by the error translator
(`omise.errors`, absent from `src/`); see `raise_from_data`. -/
inductive PyErr where
  | keyError : String → PyErr
  | attributeError : String → PyErr
  | typeError : String → PyErr
  | indexError : PyErr
  | apiError : List (String × JVal) → PyErr
  deriving Repr

/-- Python's test `s[0] == c` on a string: true when the first character
is `c`.  (Python raises `IndexError` on an empty string; the names the
library tests are nonempty attribute names, and the paths it tests are
nonempty URL references, so `false` on `""` is out of the used domain.) -/
def strHeadIs (s : String) (c : Char) : Bool :=
  match s.data with
  | [] => false
  | a :: _ => a == c

/-- Python dict lookup returning `none` when the key is absent: the value
stored under the (unique) occurrence of `k`.  `d[k]` raises `KeyError`
where this is `none`; `d.get(k)` returns `None` there. -/
def dget {α : Type} : List (String × α) → String → Option α
  | [], _ => none
  | p :: rest, k => if p.1 = k then some p.2 else dget rest k

/-- Python `d[k] = v`: replace the value under `k` in place, or append a
new entry (insertion order preserved, as in Python dicts). -/
def dset {α : Type} : List (String × α) → String → α → List (String × α)
  | [], k, v => [(k, v)]
  | p :: rest, k, v =>
      if p.1 = k then (k, v) :: rest else p :: dset rest k v

/-- Python `d.update(other)`: set every entry of `other` in order. -/
def dupdate {α : Type} (d other : List (String × α)) : List (String × α) :=
  other.foldl (fun acc p => dset acc p.1 p.2) d

@[simp] theorem dget_nil {α : Type} (k : String) :
    dget ([] : List (String × α)) k = none := rfl

@[simp] theorem dget_cons {α : Type} (p : String × α) (rest : List (String × α)) (k : String) :
    dget (p :: rest) k = if p.1 = k then some p.2 else dget rest k := rfl

@[simp] theorem dget_dset_self {α : Type} (d : List (String × α)) (k : String) (v : α) :
    dget (dset d k v) k = some v := by
  induction d with
  | nil => simp [dset]
  | cons p rest ih =>
      by_cases h : p.1 = k <;> simp [dset, h, ih]

theorem dget_dset_ne {α : Type} (d : List (String × α)) (k k' : String) (v : α)
    (h : k ≠ k') : dget (dset d k v) k' = dget d k' := by
  induction d with
  | nil => simp [dset, h]
  | cons p rest ih =>
      by_cases hp : p.1 = k
      · simp [dset, hp, h, hp ▸ h]
      · by_cases hk : p.1 = k' <;> simp [dset, hp, hk, ih, Ne.symm h]

theorem dget_eq_none_of_not_mem {α : Type} (d : List (String × α)) (k : String)
    (h : k ∉ d.map Prod.fst) : dget d k = none := by
  induction d with
  | nil => rfl
  | cons p rest ih =>
      simp only [List.map_cons, List.mem_cons] at h
      push_neg at h
      simp [dget_cons, Ne.symm h.1, ih h.2]

theorem dget_dupdate {α : Type} (d other : List (String × α)) (k : String)
    (hnd : (other.map Prod.fst).Nodup) :
    dget (dupdate d other) k = (dget other k).orElse (fun _ => dget d k) := by
  induction other generalizing d with
  | nil => simp [dupdate]
  | cons p rest ih =>
      simp only [List.map_cons, List.nodup_cons] at hnd
      have step : dupdate d (p :: rest) = dupdate (dset d p.1 p.2) rest := rfl
      rw [step, ih _ hnd.2]
      by_cases h : p.1 = k
      · subst h
        rw [dget_eq_none_of_not_mem rest p.1 hnd.1]
        simp
      · simp [h, dget_dset_ne _ _ _ _ h]

/-- The concrete record classes of the library (the values of the
registry in `_get_class_for`, plus the generic fallback `Base`). -/
inductive ClassTag where
  | account | balance | token | card | charge | customer | refund
  | transfer | transaction | collection | base
  deriving Repr, DecidableEq

/-- `_get_class_for` (src line 59): the registry dict literal, looked up
with `.get` so an unknown discriminator yields `none` (Python `None`). -/
def _get_class_for (type : String) : Option ClassTag :=
  dget [("account", ClassTag.account),
        ("balance", ClassTag.balance),
        ("token", ClassTag.token),
        ("card", ClassTag.card),
        ("charge", ClassTag.charge),
        ("customer", ClassTag.customer),
        ("refund", ClassTag.refund),
        ("transfer", ClassTag.transfer),
        ("transaction", ClassTag.transaction),
        ("list", ClassTag.collection)] type

/-- The state of a `Base` instance (src line 197): the tracked field
mapping `_attributes` and the dirty-name set `_changes`.  The set is a
duplicate-free list; only its membership is ever observed. -/
structure Base where
  _attributes : List (String × JVal)
  _changes : List String
  deriving Repr

/-- `Base.__init__` (src line 213): empty mapping, empty dirty set. -/
def Base.init : Base := ⟨[], []⟩

/-- `Base._reload_data` (src line 269): replace `_attributes` with a
shallow copy of the given mapping's entries, clear `_changes`, and
return `self` (here: the new state is the returned record). -/
def Base.reload_data (_self : Base) (data : List (String × JVal)) : Base :=
  ⟨data, []⟩

/-- `Base.from_data` (src line 243): a fresh instance reloaded with the
given data. -/
def Base.from_data (data : List (String × JVal)) : Base :=
  Base.init.reload_data data

/-- Python `set.add`: insert the name if it is not already a member. -/
def setAdd (s : List String) (k : String) : List String :=
  if k ∈ s then s else s ++ [k]

/-- `Base.__setattr__` (src line 218): an underscore-prefixed name is
routed to the record's implementation slots (`super().__setattr__`);
the only implementation slots are `_attributes` and `_changes`, which
this embedding sets through `Base.init` / `Base.reload_data`, so that
branch does not touch the tracked state.  Any other name is added to
the dirty set and stored in the mapping.  (Python tests `key[0] == '_'`;
attribute names are nonempty, so `strHeadIs` models it.) -/
def Base.setattr (self : Base) (key : String) (v : JVal) : Base :=
  if strHeadIs key '_' then self
  else ⟨dset self._attributes key v, setAdd self._changes key⟩

/-- `Base.changes` (src line 276): the dict mapping each dirty name to
`self._attributes.get(name)` (`None`, i.e. `JVal.null`, if absent). -/
def Base.changes (self : Base) : List (String × JVal) :=
  self._changes.map (fun c => (c, (dget self._attributes c).getD .null))

/-- A materialized Python value: the result of `_as_object`, of a field
read, or of a Collection access.  `raw v` is the value `v` returned
unchanged (scalars always; lists when read directly off a field). -/
inductive Obj where
  | raw : JVal → Obj
  | record : ClassTag → Base → Obj
  | arr : List Obj → Obj
  deriving Repr

mutual

/-- `_as_object` (src line 83): a list maps to the list of materialized
elements; a dict maps to `class.from_data(dict)` where `class` is the
registry entry for `data['object']` (raising `KeyError` when the key is
absent) with `Base` as fallback when the lookup finds nothing (also when
the discriminator is not a string: the registry has string keys); any
other value is returned unchanged. -/
def _as_object : JVal → Except PyErr Obj
  | .arr xs => (asObjectList xs).map Obj.arr
  | .obj d =>
      match dget d "object" with
      | none => .error (.keyError "object")
      | some tv =>
          let klass := match tv with
            | .str s => _get_class_for s
            | _ => none
          .ok (.record (klass.getD ClassTag.base) (Base.from_data d))
  | v => .ok (.raw v)

/-- Elementwise `_as_object` over a Python list (the comprehension at
src line 93); the first exception propagates. -/
def asObjectList : List JVal → Except PyErr (List Obj)
  | [] => .ok []
  | x :: rest =>
      match _as_object x with
      | .error e => .error e
      | .ok o =>
          match asObjectList rest with
          | .error e => .error e
          | .ok os => .ok (o :: os)

end

/-- `Base.__getattr__` (src line 225): underscore names raise
`AttributeError`; otherwise the stored raw value is looked up (a missing
key's `KeyError` is re-raised as `AttributeError`), a dict value is
materialized through `_as_object` (whose `KeyError` the same handler
also converts), and any other value is returned unchanged. -/
def Base.getattr (self : Base) (key : String) : Except PyErr Obj :=
  if strHeadIs key '_' then .error (.attributeError key)
  else
    match dget self._attributes key with
    | none => .error (.attributeError key)
    | some v =>
        match v with
        | .obj d =>
            match _as_object (.obj d) with
            | .ok o => .ok o
            | .error (.keyError a) => .error (.attributeError a)
            | .error e => .error e
        | _ => .ok (.raw v)

/-! ### Python `str()` of JSON values (for `map(str, path)`) -/

mutual

/-- Python `repr` of a decoded JSON value, as `str` shows it inside
containers: strings in single quotes (quote escaping inside string
contents is not modelled; no call-site value contains a quote),
`True` / `False` / `None`, lists in brackets, dicts in braces. -/
def pyRepr : JVal → String
  | .null => "None"
  | .bool b => cond b "True" "False"
  | .num n => toString n
  | .str s => "'" ++ s ++ "'"
  | .arr xs => "[" ++ String.intercalate ", " (pyReprList xs) ++ "]"
  | .obj d => "\x7b" ++ String.intercalate ", " (pyReprObj d) ++ "\x7d"

def pyReprList : List JVal → List String
  | [] => []
  | x :: rest => pyRepr x :: pyReprList rest

def pyReprObj : List (String × JVal) → List String
  | [] => []
  | p :: rest => ("'" ++ p.1 ++ "': " ++ pyRepr p.2) :: pyReprObj rest

end

/-- Python `str()`: the identity on strings, `repr` otherwise (with
`True` / `False` / `None` for the scalar singletons). -/
def jstr : JVal → String
  | .str s => s
  | v => pyRepr v

/-! ### URL resolution (`urllib.parse.urljoin`, an external collaborator,
modelled at its interface on the library's inputs: an absolute http(s)
base URL and a relative reference that is a plain path — no scheme,
authority, query, fragment or dot segments, the only shapes
`Request._build_path` ever produces). -/

/-- The parts of an absolute URL: scheme, network location, path. -/
structure UrlParts where
  scheme : String
  netloc : String
  path : String
  deriving Repr

/-- The characters before the first `://` and those after it, or `none`
when the text has no `://`. -/
def splitScheme : List Char → Option (List Char × List Char)
  | [] => none
  | ':' :: '/' :: '/' :: rest => some ([], rest)
  | a :: rest =>
      match splitScheme rest with
      | none => none
      | some (s, r) => some (a :: s, r)

/-- Split an absolute URL `scheme://netloc/path` into its parts; the
path keeps its leading slash and is empty when the URL ends at the
network location. -/
def parseUrl (url : String) : UrlParts :=
  match splitScheme url.data with
  | none => ⟨"", "", url⟩
  | some (sch, rest) =>
      ⟨String.mk sch,
       String.mk (rest.takeWhile (fun a => a != '/')),
       String.mk (rest.dropWhile (fun a => a != '/'))⟩

/-- The base path up to and including its last `/` (RFC 3986 5.3 merge:
all but the reference's last segment); an empty result — an empty base
path is possible only alongside an authority — becomes a single `/`. -/
def dirnameSlash (p : String) : String :=
  match (p.data.reverse.dropWhile (fun a => a != '/')).reverse with
  | [] => "/"
  | r => String.mk r

/-- `urljoin base rel` for a relative path reference `rel`: `rel`
replaces the whole base path when it starts with `/`, otherwise it is
merged onto the base path's directory. -/
def urljoin (base rel : String) : String :=
  let b := parseUrl base
  let newPath := if strHeadIs rel '/' then rel else dirnameSlash b.path ++ rel
  b.scheme ++ "://" ++ b.netloc ++ newPath

/-! ### The API requestor (`Request`) -/

/-- API constants (src lines 35-37). -/
def api_compat : String := "2014-07-27"

def api_main : String := "https://api.omise.co"

def api_vault : String := "https://vault.omise.co"

/-- The `path` argument of `Request.send` (src line 123): a single
segment, or an ordered sequence of segments.  Each segment is the
Python `str()` of the caller's value (`map(str, path)` at src line 179
— the identity on the strings every call site passes; a single
non-string non-iterable value is likewise carried as its `str()`). -/
inductive PathArg where
  | one : String → PathArg
  | segs : List String → PathArg
  deriving Repr

/-- A form payload: a flat mapping of field name to value. -/
abbrev Payload := List (String × JVal)

/-- A header mapping. -/
abbrev Headers := List (String × String)

/-- One HTTP invocation as handed to the transport (`requests`): the
method, the resolved URL, the payload and the headers.  Basic auth with
the API key and the bundled trust store are attached uniformly at
src lines 164-167 and carry no per-call logic. -/
structure HttpCall where
  method : String
  url : String
  payload : Payload
  headers : Headers
  deriving Repr

/-- The HTTP transport, an external collaborator: one invocation maps to
the decoded JSON object of its response (the response contract of
spec section 6: every response is a JSON object). -/
abbrev Transport := HttpCall → List (String × JVal)

/-- The requestor state after a successful `Request.__init__`. -/
structure Request where
  api_key : String
  api_base : String
  deriving Repr

/-- `Request.__init__` (src line 117): an unset (`None`) API key raises
`AttributeError` before anything else happens. -/
def Request.init (api_key : Option String) (api_base : String) : Except PyErr Request :=
  match api_key with
  | none => .error (.attributeError "API key is not set.")
  | some k => .ok ⟨k, api_base⟩

/-- `Request._build_path` (src line 176): a non-iterable (or string)
path becomes a one-segment tuple; the segments are stringified, joined
with `/` and resolved against the base URL. -/
def Request.build_path (r : Request) (path : PathArg) : String :=
  match path with
  | .one s => urljoin r.api_base s
  | .segs l => urljoin r.api_base (String.intercalate "/" l)

/-- `Request._build_payload` (src line 182): `None` becomes an empty
mapping. -/
def Request.build_payload (payload : Option Payload) : Payload :=
  payload.getD []

/-- The `User-Agent` value (src line 191).  `ver` stands for
`version.__VERSION__`; modelled from the spec: the `omise/version.py`
module is absent from `src/`, and the spec (section 4.1) says only that
the User-Agent carries the client's own version, so the version string
is a parameter. -/
def userAgent (ver : String) : String :=
  "OmisePython/" ++ ver ++ " OmiseAPI/" ++ api_compat

/-- `Request._build_headers` (src line 187): start from the caller's
mapping (`None` becomes empty) and unconditionally set `Accept` and
`User-Agent`, overwriting any caller-supplied values for those keys. -/
def Request.build_headers (ver : String) (headers : Option Headers) : Headers :=
  let h := headers.getD []
  dset (dset h "Accept" "application/json") "User-Agent" (userAgent ver)

/-- Modelled from the spec: `omise.errors._raise_from_data` — the Error
Translator, whose module `omise/errors.py` is absent from `src/` —
always raises an exception built from the decoded error body
(spec section 4.2: the translator never returns). -/
def raise_from_data (body : List (String × JVal)) : PyErr :=
  .apiError body

/-- The test `response.get('object') == 'error'` (src line 172): true
exactly when the top-level discriminator is the string `"error"`. -/
def isErrorBody (body : List (String × JVal)) : Bool :=
  match dget body "object" with
  | some (.str s) => s == "error"
  | _ => false

/-- The `HttpCall` that `Request.send` hands to the transport. -/
def Request.call (r : Request) (ver : String) (method : String) (path : PathArg)
    (payload : Option Payload) (headers : Option Headers) : HttpCall :=
  ⟨method, r.build_path path, Request.build_payload payload,
    Request.build_headers ver headers⟩

/-- `Request.send` (src line 123): build the URL, payload and headers,
perform exactly one transport invocation, decode the body; when the
body's top-level `object` field equals `"error"`, invoke the error
translator (which raises); otherwise return the body unchanged.  The
second component lists the transport invocations made. -/
def Request.send (r : Request) (ver : String) (transport : Transport)
    (method : String) (path : PathArg) (payload : Option Payload)
    (headers : Option Headers) :
    Except PyErr (List (String × JVal)) × List HttpCall :=
  let c := r.call ver method path payload headers
  let response := transport c
  if isErrorBody response then (.error (raise_from_data response), [c])
  else (.ok response, [c])

/-- `_MainResource._request` (src line 289): construct a requestor from
the process-wide secret key and the main host, then send.  A failed
construction propagates before any transport invocation. -/
def _MainResource._request (api_secret : Option String) (ver : String)
    (transport : Transport) (method : String) (path : PathArg)
    (payload : Option Payload) (headers : Option Headers) :
    Except PyErr (List (String × JVal)) × List HttpCall :=
  match Request.init api_secret api_main with
  | .error e => (.error e, [])
  | .ok r => r.send ver transport method path payload headers

/-- `_VaultResource._request` (src line 296): as `_MainResource._request`
with the process-wide public key and the vault host. -/
def _VaultResource._request (api_public : Option String) (ver : String)
    (transport : Transport) (method : String) (path : PathArg)
    (payload : Option Payload) (headers : Option Headers) :
    Except PyErr (List (String × JVal)) × List HttpCall :=
  match Request.init api_public api_vault with
  | .error e => (.error e, [])
  | .ok r => r.send ver transport method path payload headers

/-! ### Collection (src line 682) -/

/-- The raw element sequence `self._attributes['data']`: `KeyError` when
the key is absent.  The response contract (spec section 6) fixes `data`
to an ordered sequence, so a non-list value is out of the modelled
domain and mapped to `TypeError`. -/
def Collection.data (self : Base) : Except PyErr (List JVal) :=
  match dget self._attributes "data" with
  | none => .error (.keyError "data")
  | some (.arr xs) => .ok xs
  | some _ => .error (.typeError "data is not a list")

/-- `Collection.__len__` (src line 685): `len(self._attributes['data'])`. -/
def Collection.len (self : Base) : Except PyErr Nat :=
  (Collection.data self).map List.length

/-- `Collection.__iter__` (src line 688) run to completion (`list(self)`):
each raw element materialized through `_as_object`, in order. -/
def Collection.iterList (self : Base) : Except PyErr (List Obj) :=
  match Collection.data self with
  | .error e => .error e
  | .ok xs => asObjectList xs

/-- `Collection.__getitem__` (src line 692):
`_as_object(self._attributes['data'][item])`. -/
def Collection.getitem (self : Base) (i : Nat) : Except PyErr Obj :=
  match Collection.data self with
  | .error e => .error e
  | .ok xs =>
      match xs.get? i with
      | none => .error .indexError
      | some x => _as_object x

/-- What `Collection.retrieve` returns: one materialized element, the
implicit `None` when no element matched, or the full materialized list
when no id was given. -/
inductive RetrieveResult where
  | found : Obj → RetrieveResult
  | notFound : RetrieveResult
  | all : List Obj → RetrieveResult
  deriving Repr

/-- Python `==` between a raw JSON value and the id string argument:
true exactly for the equal string. -/
def jeqStr (v : JVal) (t : String) : Bool :=
  match v with
  | .str s => s == t
  | _ => false

/-- The loop of `Collection.retrieve` (src line 708): the first raw
element whose `obj['id']` equals the argument is materialized and
returned; falling off the loop returns `None`. -/
def Collection.retrieveLoop (xs : List JVal) (object_id : String) :
    Except PyErr RetrieveResult :=
  match xs with
  | [] => .ok .notFound
  | x :: rest =>
      match x with
      | .obj d =>
          match dget d "id" with
          | none => .error (.keyError "id")
          | some v =>
              if jeqStr v object_id then (_as_object x).map .found
              else Collection.retrieveLoop rest object_id
      | _ => .error (.typeError "element is not subscriptable")

/-- `Collection.retrieve` (src line 695): with no id, `list(self)`;
with an id, the lookup loop over the raw `data` sequence. -/
def Collection.retrieve (self : Base) (object_id : Option String) :
    Except PyErr RetrieveResult :=
  match object_id with
  | none => (Collection.iterList self).map .all
  | some oid =>
      match Collection.data self with
      | .error e => .error e
      | .ok xs => Collection.retrieveLoop xs oid

/-! ### The `update` bindings (src lines 632 and 786) -/

/-- `Customer._instance_path` (src line 735). -/
def Customer._instance_path (customer_id : String) : PathArg :=
  .segs ["customers", customer_id]

/-- `Charge._instance_path` (src line 576). -/
def Charge._instance_path (charge_id : String) : PathArg :=
  .segs ["charges", charge_id]

/-- `Customer.update` (src line 786): deep-copy the dirty mapping, merge
the explicit keyword fields over it, PATCH the instance path (derived
from `self._attributes['id']`, whose absence raises `KeyError` before
any transport invocation), replace the local state with the response and
return self. -/
def Customer.update (self : Base) (api_secret : Option String) (ver : String)
    (transport : Transport) (kwargs : List (String × JVal)) :
    Except PyErr Base × List HttpCall :=
  let changed := dupdate self.changes kwargs
  match dget self._attributes "id" with
  | none => (.error (.keyError "id"), [])
  | some idv =>
      match _MainResource._request api_secret ver transport "patch"
          (Customer._instance_path (jstr idv)) (some changed) none with
      | (.error e, calls) => (.error e, calls)
      | (.ok body, calls) => (.ok (self.reload_data body), calls)

/-- `Charge.update` (src line 632): identical to `Customer.update` over
the charge instance path. -/
def Charge.update (self : Base) (api_secret : Option String) (ver : String)
    (transport : Transport) (kwargs : List (String × JVal)) :
    Except PyErr Base × List HttpCall :=
  let changed := dupdate self.changes kwargs
  match dget self._attributes "id" with
  | none => (.error (.keyError "id"), [])
  | some idv =>
      match _MainResource._request api_secret ver transport "patch"
          (Charge._instance_path (jstr idv)) (some changed) none with
      | (.error e, calls) => (.error e, calls)
      | (.ok body, calls) => (.ok (self.reload_data body), calls)

/-! ### Interleavings of field writes and loads (for the change-tracking
invariant) -/

/-- One step of application code against a record: a field write
(`obj.name = value`) or a load of fresh data (`_reload_data`). -/
inductive FieldOp where
  | write : String → JVal → FieldOp
  | load : List (String × JVal) → FieldOp
  deriving Repr

/-- A write's name is a tracked (non-underscore) field name. -/
def FieldOp.nonUnderscore : FieldOp → Prop
  | .write k _ => strHeadIs k '_' = false
  | .load _ => True

instance (op : FieldOp) : Decidable op.nonUnderscore := by
  cases op <;> simp [FieldOp.nonUnderscore] <;> infer_instance

/-- Apply one step to a record state. -/
def FieldOp.apply (s : Base) : FieldOp → Base
  | .write k v => s.setattr k v
  | .load d => s.reload_data d

/-- Run an interleaving of writes and loads. -/
def runOps (s : Base) (ops : List FieldOp) : Base :=
  ops.foldl FieldOp.apply s

/-- The specification's "fields written since the last load": starting
from `W`, a write records the name with its last-written value and a
load forgets everything. -/
def writtenFrom (W : List (String × JVal)) (ops : List FieldOp) :
    List (String × JVal) :=
  ops.foldl
    (fun acc op =>
      match op with
      | .write k v => dset acc k v
      | .load _ => []) W

/-- The fields written since the last load across a whole interleaving. -/
def writtenSince (ops : List FieldOp) : List (String × JVal) :=
  writtenFrom [] ops

theorem mem_setAdd (s : List String) (k a : String) :
    a ∈ setAdd s k ↔ a ∈ s ∨ a = k := by
  by_cases h : k ∈ s
  · simp only [setAdd, if_pos h]
    constructor
    · exact Or.inl
    · rintro (ha | rfl) <;> [exact ha; exact h]
  · simp [setAdd, if_neg h]

theorem dget_map_pair {α : Type} (cs : List String) (f : String → α) (k : String) :
    dget (cs.map (fun c => (c, f c))) k = if k ∈ cs then some (f k) else none := by
  induction cs with
  | nil => simp
  | cons c rest ih =>
      by_cases h : c = k
      · subst h; simp
      · simp [h, ih, Ne.symm h]

theorem dget_changes (s : Base) (k : String) :
    dget s.changes k
      = if k ∈ s._changes then some ((dget s._attributes k).getD .null) else none :=
  dget_map_pair s._changes _ k

/-- The change-tracking invariant is preserved across any interleaving:
if the dirty mapping of `s` agrees with `W`, then running `ops` from `s`
leaves a dirty mapping agreeing with `writtenFrom W ops`. -/
theorem changes_agree (ops : List FieldOp) (s : Base) (W : List (String × JVal))
    (hops : ∀ op ∈ ops, op.nonUnderscore)
    (hinv : ∀ k, dget s.changes k = dget W k) :
    ∀ k, dget (runOps s ops).changes k = dget (writtenFrom W ops) k := by
  induction ops generalizing s W with
  | nil => exact hinv
  | cons op rest ih =>
      have hop : op.nonUnderscore := hops op (List.mem_cons_self op rest)
      have hrest : ∀ o ∈ rest, o.nonUnderscore := fun o ho =>
        hops o (List.mem_cons_of_mem op ho)
      have hstep : runOps s (op :: rest) = runOps (op.apply s) rest := rfl
      have wstep : writtenFrom W (op :: rest)
          = writtenFrom
              (match op with
                | .write k v => dset W k v
                | .load _ => []) rest := by
        cases op <;> rfl
      rw [hstep, wstep]
      cases op with
      | write k v =>
          refine ih (s.setattr k v) (dset W k v) hrest (fun k' => ?_)
          have hund : strHeadIs k '_' = false := hop
          have happ : s.setattr k v
              = ⟨dset s._attributes k v, setAdd s._changes k⟩ := by
            simp [Base.setattr, hund]
          rw [happ]
          by_cases hk : k' = k
          · subst hk
            rw [dget_changes]
            simp [mem_setAdd]
          · rw [dget_changes]
            simp only [mem_setAdd]
            rw [dget_dset_ne _ _ _ _ (fun h => hk h.symm),
                dget_dset_ne _ _ _ _ (fun h => hk h.symm)]
            have := hinv k'
            rw [dget_changes] at this
            by_cases hm : k' ∈ s._changes
            · simp only [hm, true_or, if_true, if_pos hm] at this ⊢
              · exact this
            · have : dget W k' = none := by
                rw [← this]; simp [hm]
              simp [hm, Ne.symm (fun h => hk h.symm), hk, this]
      | load d =>
          refine ih (s.reload_data d) [] hrest (fun k' => ?_)
          rw [dget_changes]
          simp [Base.reload_data]

/-! ## Helper lemmas -/

theorem asObjectList_ok_cons {x : JVal} {rest : List JVal} {l : List Obj}
    (h : asObjectList (x :: rest) = .ok l) :
    ∃ o os, _as_object x = .ok o ∧ asObjectList rest = .ok os ∧ l = o :: os := by
  simp only [asObjectList] at h
  cases h1 : _as_object x with
  | error e => rw [h1] at h; simp at h
  | ok o =>
      rw [h1] at h
      cases h2 : asObjectList rest with
      | error e => rw [h2] at h; simp at h
      | ok os =>
          rw [h2] at h
          simp only [Except.ok.injEq] at h
          exact ⟨o, os, rfl, rfl, h.symm⟩

theorem asObjectList_length : ∀ {xs : List JVal} {l : List Obj},
    asObjectList xs = .ok l → l.length = xs.length := by
  intro xs
  induction xs with
  | nil =>
      intro l h
      simp only [asObjectList, Except.ok.injEq] at h
      simp [← h]
  | cons x rest ih =>
      intro l h
      obtain ⟨o, os, _, h2, rfl⟩ := asObjectList_ok_cons h
      simp [ih h2]

theorem asObjectList_get : ∀ {xs : List JVal} {l : List Obj},
    asObjectList xs = .ok l → ∀ (i : Nat) (hi : i < xs.length) (hl : i < l.length),
      _as_object (xs.get ⟨i, hi⟩) = .ok (l.get ⟨i, hl⟩) := by
  intro xs
  induction xs with
  | nil => intro l _ i hi; exact absurd hi (by simp)
  | cons x rest ih =>
      intro l h i hi hl
      obtain ⟨o, os, h1, h2, rfl⟩ := asObjectList_ok_cons h
      cases i with
      | zero => simpa using h1
      | succ j =>
          have hj : j < rest.length := by simpa using hi
          have hj' : j < os.length := by simpa using hl
          simpa using ih h2 j hj hj'

theorem isErrorBody_iff (body : List (String × JVal)) :
    isErrorBody body = true ↔ dget body "object" = some (.str "error") := by
  unfold isErrorBody
  cases h : dget body "object" with
  | none => simp
  | some v => cases v <;> simp [beq_iff_eq]

/-! ## Claims -/

/-- Claim C10: a dict input whose `object` discriminator key is absent
makes `_as_object` fail with a key-missing error rather than produce the
generic record; the `Base` fallback needs the key present. -/
theorem object_factory_requires_discriminator (d : List (String × JVal))
    (h : dget d "object" = none) :
    _as_object (.obj d) = .error (.keyError "object") := by
  simp only [_as_object, h]

/-- Witness for C10 at a concrete discriminator-free dict. -/
theorem object_factory_requires_discriminator_witness :
    dget [("id", JVal.str "chrg_1")] "object" = none ∧
    _as_object (.obj [("id", JVal.str "chrg_1")]) = .error (.keyError "object") :=
  ⟨rfl, object_factory_requires_discriminator [("id", JVal.str "chrg_1")] rfl⟩

/-- Claim C4: `_as_object` maps a list to the list of independently
materialized elements in order, a dict (with a discriminator) to an
instance of the registered class loaded with the dict — `Base` when the
discriminator is not in the registry — and any other value to itself
unchanged. -/
theorem object_factory_cases :
    (∀ (xs : List JVal) (l : List Obj), asObjectList xs = .ok l →
        _as_object (.arr xs) = .ok (.arr l) ∧ l.length = xs.length ∧
        ∀ (i : Nat) (hi : i < xs.length) (hl : i < l.length),
          _as_object (xs.get ⟨i, hi⟩) = .ok (l.get ⟨i, hl⟩)) ∧
    (∀ (d : List (String × JVal)) (s : String) (tag : ClassTag),
        dget d "object" = some (.str s) → _get_class_for s = some tag →
        _as_object (.obj d) = .ok (.record tag (Base.from_data d))) ∧
    (∀ (d : List (String × JVal)) (s : String),
        dget d "object" = some (.str s) → _get_class_for s = none →
        _as_object (.obj d) = .ok (.record ClassTag.base (Base.from_data d))) ∧
    (∀ n : Int, _as_object (.num n) = .ok (.raw (.num n))) ∧
    (∀ s : String, _as_object (.str s) = .ok (.raw (.str s))) ∧
    (∀ b : Bool, _as_object (.bool b) = .ok (.raw (.bool b))) ∧
    _as_object .null = .ok (.raw .null) := by
  refine ⟨?_, ?_, ?_, fun n => rfl, fun s => rfl, fun b => rfl, rfl⟩
  · intro xs l h
    refine ⟨?_, asObjectList_length h, asObjectList_get h⟩
    simp only [_as_object, h]
    rfl
  · intro d s tag hd htag
    simp only [_as_object, hd, htag, Option.getD_some]
  · intro d s hd htag
    simp only [_as_object, hd, htag, Option.getD_none]

/-- Witness for C4: a list of two charge dicts, a registered and an
unregistered discriminator, and a scalar. -/
theorem object_factory_cases_witness :
    asObjectList [JVal.obj [("object", JVal.str "charge")]] =
      .ok [Obj.record ClassTag.charge (Base.from_data [("object", JVal.str "charge")])] ∧
    _as_object (.arr [JVal.obj [("object", JVal.str "charge")]]) =
      .ok (.arr [Obj.record ClassTag.charge (Base.from_data [("object", JVal.str "charge")])]) ∧
    _as_object (.obj [("object", JVal.str "event")]) =
      .ok (.record ClassTag.base (Base.from_data [("object", JVal.str "event")])) ∧
    _as_object (.num 7) = .ok (.raw (.num 7)) := by
  refine ⟨rfl, ?_, ?_, ?_⟩
  · exact (object_factory_cases.1 [JVal.obj [("object", JVal.str "charge")]]
      [Obj.record ClassTag.charge (Base.from_data [("object", JVal.str "charge")])] rfl).1
  · exact object_factory_cases.2.2.1 _ "event" rfl rfl
  · exact object_factory_cases.2.2.2.1 7

/-- Claim C5: a non-underscore field read fails with an
attribute-not-found error when the name is absent; a stored dict is
materialized through the object factory anew on the read (the read
leaves the record state untouched, so nothing is memoized); any other
stored value — a sequence of mappings included — is returned unchanged. -/
theorem getattr_cases (s : Base) (k : String) (hk : strHeadIs k '_' = false) :
    (dget s._attributes k = none → s.getattr k = .error (.attributeError k)) ∧
    (∀ d o, dget s._attributes k = some (.obj d) → _as_object (.obj d) = .ok o →
        s.getattr k = .ok o) ∧
    (∀ v, dget s._attributes k = some v → (∀ d, v ≠ .obj d) →
        s.getattr k = .ok (.raw v)) ∧
    (∀ xs, dget s._attributes k = some (.arr xs) →
        s.getattr k = .ok (.raw (.arr xs))) := by
  refine ⟨?_, ?_, ?_, ?_⟩
  · intro h
    simp only [Base.getattr, hk, Bool.false_eq_true, if_false, h]
  · intro d o hd ho
    simp only [Base.getattr, hk, Bool.false_eq_true, if_false, hd, ho]
  · intro v hv hne
    cases v with
    | obj d => exact absurd rfl (hne d)
    | null => simp only [Base.getattr, hk, Bool.false_eq_true, if_false, hv]
    | bool b => simp only [Base.getattr, hk, Bool.false_eq_true, if_false, hv]
    | num n => simp only [Base.getattr, hk, Bool.false_eq_true, if_false, hv]
    | str t => simp only [Base.getattr, hk, Bool.false_eq_true, if_false, hv]
    | arr xs => simp only [Base.getattr, hk, Bool.false_eq_true, if_false, hv]
  · intro xs hxs
    simp only [Base.getattr, hk, Bool.false_eq_true, if_false, hxs]

/-- A record for the C5 witness: a nested card dict, a raw list of
dicts, and a scalar. -/
def getattrEx : Base := Base.from_data
  [("card", .obj [("object", JVal.str "card"), ("id", JVal.str "card_1")]),
   ("cards_raw", .arr [JVal.obj [("object", JVal.str "card")]]),
   ("amount", .num 100)]

/-- Witness for C5: the three read outcomes on `getattrEx`. -/
theorem getattr_cases_witness :
    getattrEx.getattr "missing" = .error (.attributeError "missing") ∧
    getattrEx.getattr "card"
      = .ok (.record ClassTag.card
          (Base.from_data [("object", JVal.str "card"), ("id", JVal.str "card_1")])) ∧
    getattrEx.getattr "cards_raw"
      = .ok (.raw (.arr [JVal.obj [("object", JVal.str "card")]])) ∧
    getattrEx.getattr "amount" = .ok (.raw (.num 100)) :=
  ⟨(getattr_cases getattrEx "missing" rfl).1 rfl,
   (getattr_cases getattrEx "card" rfl).2.1 _ _ rfl rfl,
   (getattr_cases getattrEx "cards_raw" rfl).2.2.2 _ rfl,
   (getattr_cases getattrEx "amount" rfl).2.2.1 _ rfl (fun _ h => JVal.noConfusion h)⟩

/-- Claim C1: when the decoded response body's top-level `object` field
equals `"error"`, `Request.send` hands the body to the error translator
and propagates its exception, never returning the body; any other body
is returned unchanged. -/
theorem send_error_handling (r : Request) (ver : String) (transport : Transport)
    (method : String) (path : PathArg) (payload : Option Payload)
    (headers : Option Headers) :
    (dget (transport (r.call ver method path payload headers)) "object"
        = some (.str "error") →
      (r.send ver transport method path payload headers).1
        = .error (raise_from_data (transport (r.call ver method path payload headers))) ∧
      ∀ b, (r.send ver transport method path payload headers).1 ≠ .ok b) ∧
    (dget (transport (r.call ver method path payload headers)) "object"
        ≠ some (.str "error") →
      (r.send ver transport method path payload headers).1
        = .ok (transport (r.call ver method path payload headers))) := by
  constructor
  · intro h
    have he : isErrorBody (transport (r.call ver method path payload headers)) = true :=
      (isErrorBody_iff _).mpr h
    have hres : (r.send ver transport method path payload headers).1
        = .error (raise_from_data (transport (r.call ver method path payload headers))) := by
      simp only [Request.send, he, if_true]
    exact ⟨hres, fun b hb => by rw [hres] at hb; exact Except.noConfusion hb⟩
  · intro h
    have he : isErrorBody (transport (r.call ver method path payload headers)) = false := by
      cases hb : isErrorBody (transport (r.call ver method path payload headers)) with
      | false => rfl
      | true => exact absurd ((isErrorBody_iff _).mp hb) h
    simp only [Request.send, he, Bool.false_eq_true, if_false]

/-- A transport double answering every call with an error body. -/
def errTransportEx : Transport :=
  fun _ => [("object", JVal.str "error"), ("code", JVal.str "invalid_card")]

/-- A transport double answering every call with an account body. -/
def okTransportEx : Transport :=
  fun _ => [("object", JVal.str "account"), ("email", JVal.null)]

/-- A constructed requestor for witnesses. -/
def requestEx : Request := ⟨"skey_test", api_main⟩

/-- Witness for C1: an error body raises the translated error, an
account body is returned unchanged. -/
theorem send_error_handling_witness :
    (requestEx.send "1.0" errTransportEx "get" (.one "account") none none).1
      = .error (raise_from_data
          [("object", JVal.str "error"), ("code", JVal.str "invalid_card")]) ∧
    (requestEx.send "1.0" okTransportEx "get" (.one "account") none none).1
      = .ok [("object", JVal.str "account"), ("email", JVal.null)] :=
  ⟨((send_error_handling requestEx "1.0" errTransportEx "get" (.one "account") none none).1
      rfl).1,
   (send_error_handling requestEx "1.0" okTransportEx "get" (.one "account") none none).2
      (by intro h
          have hs := Option.some.inj h
          injection hs with hs
          exact absurd hs (by decide))⟩

/-- Claim C2: a main-API or vault operation whose required key is unset
(`None`) fails during requestor construction with the configuration
error, and the transport is never invoked (the call list is empty). -/
theorem unset_key_fails_before_transport (ver : String) (transport : Transport)
    (method : String) (path : PathArg) (payload : Option Payload)
    (headers : Option Headers) :
    _MainResource._request none ver transport method path payload headers
      = (.error (.attributeError "API key is not set."), []) ∧
    _VaultResource._request none ver transport method path payload headers
      = (.error (.attributeError "API key is not set."), []) :=
  ⟨rfl, rfl⟩

/-- Claim C3: `load` replaces the whole field mapping with the given
entries and empties the dirty set; and across any interleaving of
non-underscore writes and loads, the dirty mapping holds exactly the
names written since the last load, each at its last-written raw value. -/
theorem change_tracking (s : Base) (d : List (String × JVal))
    (d0 : List (String × JVal)) (ops : List FieldOp)
    (hops : ∀ op ∈ ops, op.nonUnderscore) :
    (s.reload_data d)._attributes = d ∧ (s.reload_data d)._changes = [] ∧
    ∀ k, dget (runOps (Base.from_data d0) ops).changes k
        = dget (writtenSince ops) k := by
  refine ⟨rfl, rfl, ?_⟩
  have hinit : ∀ k, dget (Base.from_data d0).changes k
      = dget ([] : List (String × JVal)) k := by
    intro k
    rw [dget_changes]
    simp [Base.from_data, Base.reload_data]
  exact changes_agree ops (Base.from_data d0) [] hops hinit

/-- An interleaving for the C3 witness: two writes to one field, a write
to another, a load, then one more write. -/
def opsEx : List FieldOp :=
  [.write "email" (.str "a@example.com"),
   .write "email" (.str "b@example.com"),
   .write "name" (.str "John"),
   .load [("id", JVal.str "cust_1")],
   .write "city" (.str "Bangkok")]

/-- Witness for C3 on `opsEx`: after the load only `city` is dirty. -/
theorem change_tracking_witness :
    (∀ op ∈ opsEx, FieldOp.nonUnderscore op) ∧
    dget (runOps (Base.from_data []) opsEx).changes "city"
      = dget (writtenSince opsEx) "city" ∧
    dget (runOps (Base.from_data []) opsEx).changes "email"
      = dget (writtenSince opsEx) "email" ∧
    dget (writtenSince opsEx) "city" = some (.str "Bangkok") ∧
    dget (writtenSince opsEx) "email" = none :=
  ⟨by decide,
   (change_tracking Base.init [] [] opsEx (by decide)).2.2 "city",
   (change_tracking Base.init [] [] opsEx (by decide)).2.2 "email",
   rfl, rfl⟩

theorem urljoin_example_base (rel : String) (h : strHeadIs rel '/' = false) :
    urljoin "https://api.example.com/" rel = "https://api.example.com/" ++ rel := by
  unfold urljoin
  simp only [h, Bool.false_eq_true, if_false]
  rw [← String.append_assoc]
  rfl

theorem urljoin_main_base (rel : String) (h : strHeadIs rel '/' = false) :
    urljoin api_main rel = "https://api.omise.co/" ++ rel := by
  unfold urljoin
  simp only [h, Bool.false_eq_true, if_false]
  rw [← String.append_assoc]
  rfl

theorem urljoin_vault_base (rel : String) (h : strHeadIs rel '/' = false) :
    urljoin api_vault rel = "https://vault.omise.co/" ++ rel := by
  unfold urljoin
  simp only [h, Bool.false_eq_true, if_false]
  rw [← String.append_assoc]
  rfl

/-- Claim C7: `_build_path` joins the stringified segments with `/` and
resolves the join against the base URL without duplicating or dropping
the separating slash: against `https://api.example.com/` any
slash-free-headed join lands right after the base's slash, a single
segment behaves as the one-element sequence, and the concrete segments
`["charges", "chrg_1", "capture"]` give exactly
`https://api.example.com/charges/chrg_1/capture`. -/
theorem build_path_join (key : String) (segs : List String) (s1 : String)
    (hsegs : strHeadIs (String.intercalate "/" segs) '/' = false)
    (hs1 : strHeadIs s1 '/' = false) :
    (Request.mk key "https://api.example.com/").build_path (.segs segs)
      = "https://api.example.com/" ++ String.intercalate "/" segs ∧
    (Request.mk key "https://api.example.com/").build_path (.one s1)
      = "https://api.example.com/" ++ s1 ∧
    (Request.mk key "https://api.example.com/").build_path
        (.segs ["charges", "chrg_1", "capture"])
      = "https://api.example.com/charges/chrg_1/capture" ∧
    (Request.mk key api_main).build_path (.segs segs)
      = "https://api.omise.co/" ++ String.intercalate "/" segs ∧
    (Request.mk key api_vault).build_path (.segs segs)
      = "https://vault.omise.co/" ++ String.intercalate "/" segs := by
  refine ⟨?_, ?_, ?_, ?_, ?_⟩
  · exact urljoin_example_base _ hsegs
  · exact urljoin_example_base _ hs1
  · exact (urljoin_example_base "charges/chrg_1/capture" rfl).trans rfl
  · exact urljoin_main_base _ hsegs
  · exact urljoin_vault_base _ hsegs

/-- Witness for C7 at the specification's concrete segments. -/
theorem build_path_join_witness :
    strHeadIs (String.intercalate "/" ["charges", "chrg_1", "capture"]) '/' = false ∧
    (Request.mk "skey_test" "https://api.example.com/").build_path
        (.segs ["charges", "chrg_1", "capture"])
      = "https://api.example.com/charges/chrg_1/capture" :=
  ⟨rfl, (build_path_join "skey_test" ["charges", "chrg_1", "capture"] "account"
      rfl rfl).2.2.1⟩

/-- Claim C8: the headers `Request.send` uses always carry
`Accept: application/json` and the version-carrying `User-Agent`, these
two override any caller-supplied values for the same keys, and every
other caller-supplied entry is preserved. -/
theorem build_headers_baseline (ver : String) (hs : Headers) :
    dget (Request.build_headers ver (some hs)) "Accept" = some "application/json" ∧
    dget (Request.build_headers ver (some hs)) "User-Agent"
      = some ("OmisePython/" ++ ver ++ " OmiseAPI/" ++ api_compat) ∧
    (∀ k, k ≠ "Accept" → k ≠ "User-Agent" →
        dget (Request.build_headers ver (some hs)) k = dget hs k) ∧
    dget (Request.build_headers ver none) "Accept" = some "application/json" ∧
    dget (Request.build_headers ver none) "User-Agent"
      = some ("OmisePython/" ++ ver ++ " OmiseAPI/" ++ api_compat) := by
  refine ⟨?_, ?_, ?_, ?_, ?_⟩
  · rw [show Request.build_headers ver (some hs)
        = dset (dset hs "Accept" "application/json") "User-Agent" (userAgent ver)
        from rfl,
      dget_dset_ne _ _ _ _ (by decide), dget_dset_self]
  · rw [show Request.build_headers ver (some hs)
        = dset (dset hs "Accept" "application/json") "User-Agent" (userAgent ver)
        from rfl,
      dget_dset_self]
    rfl
  · intro k hk1 hk2
    rw [show Request.build_headers ver (some hs)
        = dset (dset hs "Accept" "application/json") "User-Agent" (userAgent ver)
        from rfl,
      dget_dset_ne _ _ _ _ (Ne.symm hk2), dget_dset_ne _ _ _ _ (Ne.symm hk1)]
  · rw [show Request.build_headers ver none
        = dset (dset [] "Accept" "application/json") "User-Agent" (userAgent ver)
        from rfl,
      dget_dset_ne _ _ _ _ (by decide), dget_dset_self]
  · rw [show Request.build_headers ver none
        = dset (dset [] "Accept" "application/json") "User-Agent" (userAgent ver)
        from rfl,
      dget_dset_self]
    rfl

/-- A caller header mapping that tries to override `Accept` and adds an
extra entry. -/
def headersEx : Headers := [("Accept", "text/html"), ("X-Custom", "1")]

/-- Witness for C8: the baseline wins over the caller's `Accept`, the
extra entry survives. -/
theorem build_headers_baseline_witness :
    dget (Request.build_headers "1.0" (some headersEx)) "Accept"
      = some "application/json" ∧
    dget (Request.build_headers "1.0" (some headersEx)) "User-Agent"
      = some ("OmisePython/" ++ "1.0" ++ " OmiseAPI/" ++ api_compat) ∧
    dget (Request.build_headers "1.0" (some headersEx)) "X-Custom" = some "1" :=
  ⟨(build_headers_baseline "1.0" headersEx).1,
   (build_headers_baseline "1.0" headersEx).2.1,
   ((build_headers_baseline "1.0" headersEx).2.2.1 "X-Custom"
      (by decide) (by decide)).trans rfl⟩

/-- The raw predicate of the C6 lookup: the element is a dict whose
`id` value equals the sought id string. -/
def idMatches (x : JVal) (oid : String) : Bool :=
  match x with
  | .obj d =>
      match dget d "id" with
      | some v => jeqStr v oid
      | none => false
  | _ => false

theorem retrieveLoop_eq_find (xs : List JVal) (oid : String)
    (hwf : ∀ x ∈ xs, ∃ d v, x = JVal.obj d ∧ dget d "id" = some v) :
    Collection.retrieveLoop xs oid
      = (match xs.find? (fun x => idMatches x oid) with
         | some x => (_as_object x).map RetrieveResult.found
         | none => .ok .notFound) := by
  induction xs with
  | nil => rfl
  | cons x rest ih =>
      have hwf' : ∀ y ∈ rest, ∃ d v, y = JVal.obj d ∧ dget d "id" = some v :=
        fun y hy => hwf y (List.mem_cons_of_mem x hy)
      obtain ⟨d, v, rfl, hv⟩ := hwf x (List.mem_cons_self x rest)
      cases hm : jeqStr v oid with
      | true =>
          simp only [Collection.retrieveLoop, hv, hm, if_true, List.find?,
            idMatches]
      | false =>
          simp only [Collection.retrieveLoop, hv, hm, Bool.false_eq_true,
            if_false, List.find?, idMatches]
          exact ih hwf'

/-- Claim C6: a Collection over an ordered `data` sequence has that
sequence's length; iterating materializes each element through the
object factory in input order; indexed access gives the element a fresh
iteration yields at that position; `retrieve(id)` gives the materialized
element whose raw `id` equals the argument and nothing-found when no
element matches; `retrieve()` gives the full materialized list. -/
theorem collection_semantics (self : Base) (xs : List JVal) (l : List Obj)
    (hdata : dget self._attributes "data" = some (.arr xs))
    (hmat : asObjectList xs = .ok l) :
    Collection.len self = .ok xs.length ∧
    Collection.iterList self = .ok l ∧
    l.length = xs.length ∧
    (∀ (i : Nat) (hi : i < xs.length) (hl : i < l.length),
        Collection.getitem self i = .ok (l.get ⟨i, hl⟩)) ∧
    Collection.retrieve self none = .ok (.all l) ∧
    (∀ oid, (∀ x ∈ xs, ∃ d v, x = JVal.obj d ∧ dget d "id" = some v) →
        Collection.retrieve self (some oid)
          = (match xs.find? (fun x => idMatches x oid) with
             | some x => (_as_object x).map RetrieveResult.found
             | none => .ok .notFound)) := by
  have hd : Collection.data self = .ok xs := by
    simp only [Collection.data, hdata]
  refine ⟨?_, ?_, asObjectList_length hmat, ?_, ?_, ?_⟩
  · simp only [Collection.len, hd, Except.map]
  · simp only [Collection.iterList, hd, hmat]
  · intro i hi hl
    have hget : xs.get? i = some (xs.get ⟨i, hi⟩) := List.get?_eq_get hi
    simp only [Collection.getitem, hd, hget]
    exact asObjectList_get hmat i hi hl
  · simp only [Collection.retrieve, Collection.iterList, hd, hmat, Except.map]
  · intro oid hwf
    simp only [Collection.retrieve, hd]
    exact retrieveLoop_eq_find xs oid hwf

/-- The specification's example charge elements. -/
def chrg1 : JVal := .obj [("object", JVal.str "charge"), ("id", JVal.str "chrg_1")]

def chrg2 : JVal := .obj [("object", JVal.str "charge"), ("id", JVal.str "chrg_2")]

/-- The specification's example collection. -/
def collEx : Base :=
  Base.from_data [("object", JVal.str "list"), ("data", .arr [chrg1, chrg2])]

/-- Witness for C6 on the specification's example collection. -/
theorem collection_semantics_witness :
    Collection.len collEx = .ok 2 ∧
    Collection.getitem collEx 1
      = .ok (.record ClassTag.charge
          (Base.from_data [("object", JVal.str "charge"), ("id", JVal.str "chrg_2")])) ∧
    Collection.retrieve collEx (some "chrg_2")
      = .ok (.found (.record ClassTag.charge
          (Base.from_data [("object", JVal.str "charge"), ("id", JVal.str "chrg_2")]))) ∧
    Collection.retrieve collEx (some "chrg_9") = .ok .notFound := by
  have hwf : ∀ x ∈ [chrg1, chrg2], ∃ d v, x = JVal.obj d ∧ dget d "id" = some v := by
    intro x hx
    rcases List.mem_cons.mp hx with rfl | hx2
    · exact ⟨_, _, rfl, rfl⟩
    rcases List.mem_cons.mp hx2 with rfl | hx3
    · exact ⟨_, _, rfl, rfl⟩
    cases hx3
  have T := collection_semantics collEx [chrg1, chrg2]
    [.record ClassTag.charge
        (Base.from_data [("object", JVal.str "charge"), ("id", JVal.str "chrg_1")]),
     .record ClassTag.charge
        (Base.from_data [("object", JVal.str "charge"), ("id", JVal.str "chrg_2")])]
    rfl rfl
  exact ⟨T.1, T.2.2.2.1 1 (by decide) (by decide),
    T.2.2.2.2.2 "chrg_2" hwf, T.2.2.2.2.2 "chrg_9" hwf⟩

/-- Claim C9: `update` on a bound resource PATCHes the instance path
with the merge of the currently-dirty fields and the explicitly passed
fields (explicit fields winning), replaces the record's local state
with the response — clearing the dirty set — and returns the record. -/
theorem update_merges_and_reloads (self : Base) (key ver : String)
    (transport : Transport) (kwargs : List (String × JVal)) (cid : String)
    (hid : dget self._attributes "id" = some (JVal.str cid))
    (hnd : (kwargs.map Prod.fst).Nodup) :
    Customer.update self (some key) ver transport kwargs
      = (((Request.mk key api_main).send ver transport "patch"
            (Customer._instance_path cid)
            (some (dupdate self.changes kwargs)) none).1.map self.reload_data,
         ((Request.mk key api_main).send ver transport "patch"
            (Customer._instance_path cid)
            (some (dupdate self.changes kwargs)) none).2) ∧
    Charge.update self (some key) ver transport kwargs
      = (((Request.mk key api_main).send ver transport "patch"
            (Charge._instance_path cid)
            (some (dupdate self.changes kwargs)) none).1.map self.reload_data,
         ((Request.mk key api_main).send ver transport "patch"
            (Charge._instance_path cid)
            (some (dupdate self.changes kwargs)) none).2) ∧
    (∀ k, dget (dupdate self.changes kwargs) k
        = (dget kwargs k).orElse (fun _ => dget self.changes k)) ∧
    (Request.mk key api_main).build_path (Customer._instance_path cid)
      = "https://api.omise.co/customers/" ++ cid ∧
    (∀ body : List (String × JVal), self.reload_data body = ⟨body, []⟩) := by
  refine ⟨?_, ?_, fun k => dget_dupdate _ _ k hnd, ?_, fun body => rfl⟩
  · simp only [Customer.update, hid, jstr]
    rcases hs : (Request.mk key api_main).send ver transport "patch"
        (Customer._instance_path cid) (some (dupdate self.changes kwargs)) none
      with ⟨res, calls⟩
    have hreq : _MainResource._request (some key) ver transport "patch"
        (Customer._instance_path cid) (some (dupdate self.changes kwargs)) none
        = (res, calls) := hs
    rw [hreq]
    cases res <;> rfl
  · simp only [Charge.update, hid, jstr]
    rcases hs : (Request.mk key api_main).send ver transport "patch"
        (Charge._instance_path cid) (some (dupdate self.changes kwargs)) none
      with ⟨res, calls⟩
    have hreq : _MainResource._request (some key) ver transport "patch"
        (Charge._instance_path cid) (some (dupdate self.changes kwargs)) none
        = (res, calls) := hs
    rw [hreq]
    cases res <;> rfl
  · have h1 : (Request.mk key api_main).build_path (Customer._instance_path cid)
        = urljoin api_main ("customers/" ++ cid) := by
      rw [show (Request.mk key api_main).build_path (Customer._instance_path cid)
          = urljoin api_main (String.intercalate "/" ["customers", cid]) from rfl]
      rw [show String.intercalate "/" ["customers", cid] = "customers/" ++ cid by
        simp [String.intercalate, String.intercalate.go]]
    rw [h1, urljoin_main_base ("customers/" ++ cid) rfl, ← String.append_assoc]
    rfl

/-- A customer record for the C9 witness: loaded data plus one dirty
field. -/
def custEx : Base :=
  (Base.from_data
    [("object", JVal.str "customer"), ("id", JVal.str "cust_1"),
     ("email", JVal.str "old@example.com")]).setattr
    "email" (.str "new@example.com")

/-- A transport double answering with an updated customer body. -/
def patchTransportEx : Transport :=
  fun _ => [("object", JVal.str "customer"), ("id", JVal.str "cust_1"),
            ("email", JVal.str "j@example.com")]

/-- Witness for C9: the PATCH call carries the dirty field merged with
the explicit one, and the record state becomes the response with an
empty dirty set. -/
theorem update_merges_and_reloads_witness :
    Customer.update custEx (some "skey") "1.0" patchTransportEx
        [("description", JVal.str "d")]
      = (.ok ⟨[("object", JVal.str "customer"), ("id", JVal.str "cust_1"),
               ("email", JVal.str "j@example.com")], []⟩,
         [⟨"patch", "https://api.omise.co/customers/cust_1",
           [("email", JVal.str "new@example.com"), ("description", JVal.str "d")],
           [("Accept", "application/json"),
            ("User-Agent", "OmisePython/1.0 OmiseAPI/2014-07-27")]⟩]) :=
  ((update_merges_and_reloads custEx "skey" "1.0" patchTransportEx
      [("description", JVal.str "d")] "cust_1" rfl (by decide)).1).trans rfl

end Omise
